import Mathlib

/-!
# EmailBot: shallow embedding and verification

A shallow embedding of the mailbox retrieval, MIME-decoding, connection-retry
and folder-move logic of `EmailBot` (src/email/emailbot_class.py), with
theorems settling the specification claims.

Conventions of the embedding:
* byte strings are `List Nat` with every element `< 256`;
* decoded text is a `List Nat` of Unicode code points;
* Python exceptions are modelled by `Option` results (`none` = raised /
  failed), so a total Lean function models a Python function that cannot
  raise on the given inputs;
* network responses of the IMAP/SMTP server are inputs (oracles) to the
  embedded client functions;
* the filesystem is an explicit state threaded through the functions.
-/

namespace EmailBot

/-! ## Byte-level text decoding (`EmailBot._decode_payload`) -/

/-- A UTF-8 continuation byte: `0x80 ≤ b < 0xC0`. -/
def isCont (b : Nat) : Bool := 0x80 ≤ b && b < 0xC0

/-- Strict UTF-8 decoding of a byte string to a list of code points,
modelling Python's `bytes.decode('utf-8')`: `none` models the
`UnicodeDecodeError` raised on any ill-formed input (stray continuation
bytes, overlong encodings, surrogates, out-of-range lead bytes). -/
def utf8Decode : List Nat → Option (List Nat)
  | [] => some []
  | b :: rest =>
    if b < 0x80 then
      (utf8Decode rest).map (fun cs => b :: cs)
    else if b < 0xC2 then
      none
    else if b ≤ 0xDF then
      match rest with
      | b1 :: rest2 =>
        if isCont b1 then
          (utf8Decode rest2).map (fun cs => ((b - 0xC0) * 0x40 + (b1 - 0x80)) :: cs)
        else none
      | [] => none
    else if b ≤ 0xEF then
      match rest with
      | b1 :: b2 :: rest3 =>
        if (if b = 0xE0 then decide (0xA0 ≤ b1) && decide (b1 < 0xC0)
            else if b = 0xED then decide (0x80 ≤ b1) && decide (b1 < 0xA0)
            else isCont b1) && isCont b2 then
          (utf8Decode rest3).map
            (fun cs => ((b - 0xE0) * 0x1000 + (b1 - 0x80) * 0x40 + (b2 - 0x80)) :: cs)
        else none
      | _ => none
    else if b ≤ 0xF4 then
      match rest with
      | b1 :: b2 :: b3 :: rest4 =>
        if (if b = 0xF0 then decide (0x90 ≤ b1) && decide (b1 < 0xC0)
            else if b = 0xF4 then decide (0x80 ≤ b1) && decide (b1 < 0x90)
            else isCont b1) && isCont b2 && isCont b3 then
          (utf8Decode rest4).map
            (fun cs => ((b - 0xF0) * 0x40000 + (b1 - 0x80) * 0x1000
                        + (b2 - 0x80) * 0x40 + (b3 - 0x80)) :: cs)
        else none
      | _ => none
    else none

/-- Latin-1 decoding of one byte: every byte value maps directly to the code
point of the same value; only a non-byte (≥ 256, impossible for real byte
strings) has no decoding. Models Python's `bytes.decode('latin-1')`. -/
def latin1DecodeByte (b : Nat) : Option Nat := if b < 256 then some b else none

/-- Latin-1 decoding of a byte string (`bytes.decode('latin-1')`): fails only
if some element is not a byte. -/
def latin1Decode : List Nat → Option (List Nat)
  | [] => some []
  | b :: rest =>
    match latin1DecodeByte b with
    | some c => (latin1Decode rest).map (fun cs => c :: cs)
    | none => none

/-- ISO-8859-1 decoding with `errors='replace'`: lossy, total — any
undecodable element is replaced by U+FFFD. Models
`bytes.decode('ISO-8859-1', errors='replace')`. -/
def iso8859Replace (bs : List Nat) : List Nat :=
  bs.map (fun b => if b < 256 then b else 0xFFFD)

/-- One leaf MIME part as seen by the decoder: the duck-typed "part" object
of the Python code. `charsetDecl` is the part-declared charset label
(`get_content_charset()`), `disposition` is `get_content_disposition()`,
`filename` is `get_filename()`, `payload` is `get_payload(decode=True)`. -/
structure LeafData where
  contentType : String
  disposition : Option String
  charsetDecl : Option String
  filename : Option String
  payload : List Nat
  deriving DecidableEq, Repr

/-- Embedding of `EmailBot._decode_payload`: try `utf-8`, on failure try
`latin-1`, on failure fall back to `ISO-8859-1` with replacement. Note that
the code never consults the part's declared charset (`charsetDecl`). -/
def decodePayload (d : LeafData) : List Nat :=
  match utf8Decode d.payload with
  | some cs => cs
  | none =>
    match latin1Decode d.payload with
    | some cs => cs
    | none => iso8859Replace d.payload

/-- Which branch of `_decode_payload` produces the result: `0` = utf-8,
`1` = latin-1, `2` = the final ISO-8859-1 lossy branch. -/
def decodeBranch (d : LeafData) : Nat :=
  match utf8Decode d.payload with
  | some _ => 0
  | none =>
    match latin1Decode d.payload with
    | some _ => 1
    | none => 2

/-- The decoding procedure the spec sentence describes (for comparison with
the code): try the part-declared charset first, then fall back through the
fixed chain utf-8, latin-1, ISO-8859-1 with replacement. A declared label
other than the three known ones is malformed/unsupported and its attempt
fails, falling through to the chain. -/
def decodeByLabel (label : String) (bs : List Nat) : Option (List Nat) :=
  if label = "utf-8" then utf8Decode bs
  else if label = "latin-1" then latin1Decode bs
  else if label = "ISO-8859-1" then latin1Decode bs
  else none

/-- Spec-described decoding (declared charset first, then the chain);
contrast with `decodePayload`, the embedding of the actual code. -/
def decodePayloadSpec (d : LeafData) : List Nat :=
  match d.charsetDecl with
  | some label =>
    match decodeByLabel label d.payload with
    | some cs => cs
    | none => decodePayload d
  | none => decodePayload d

/-! ## Connection retry loop (`EmailBot._connect`) -/

/-- Observable events of the retry loop in `_connect`: a failed attempt
(an exception was caught and logged), a successful attempt returning the
session `s`, or a `time.sleep(delay)` between attempts. -/
inductive ConnEvent (S : Type) where
  | attemptFail : ConnEvent S
  | attemptSucceed : S → ConnEvent S
  | sleep : ConnEvent S
  deriving DecidableEq, Repr

/-- Embedding of the loop body of `EmailBot._connect`, iterating over the
outcomes of the successive attempts (`some s` = connect+login succeeded
returning session `s`, `none` = an exception was raised). Mirrors
`for attempt in range(retries)`: on success return immediately; on failure
sleep only when `attempt < retries - 1`, i.e. exactly when further outcomes
remain. Returns the event trace and the result (`none` models the final
`return None` after exhausting retries — no exception escapes). -/
def connectList {S : Type} : List (Option S) → List (ConnEvent S) × Option S
  | [] => ([], none)
  | some s :: _ => ([ConnEvent.attemptSucceed s], some s)
  | none :: rest =>
    match rest with
    | [] => ([ConnEvent.attemptFail], none)
    | _ :: _ =>
      let (tr, r) := connectList rest
      (ConnEvent.attemptFail :: ConnEvent.sleep :: tr, r)

/-- Embedding of `EmailBot._connect`: `outcome k` is the result of the
`(k+1)`-th connection attempt; the loop makes at most `retries` attempts. -/
def connect {S : Type} (outcome : Nat → Option S) (retries : Nat) :
    List (ConnEvent S) × Option S :=
  connectList ((List.range retries).map outcome)

/-! ## MIME tree, traversal and extraction
(`EmailBot._extract_email_text_and_attachments`, `_save_attachments`,
`_parse_email`) -/

/-- A parsed MIME message tree: a leaf part, or a multipart container with
an ordered list of children (the tagged-variant form of Python's duck-typed
part objects). -/
inductive Part where
  | leaf : LeafData → Part
  | multi : String → List Part → Part

/-- Is the message multipart? Models `msg.is_multipart()`. -/
def Part.isMultipart : Part → Bool
  | Part.leaf _ => false
  | Part.multi _ _ => true

mutual
/-- Preorder traversal of the MIME tree, modelling `msg.walk()`: the part
itself first, then every subpart recursively, in order. -/
def walk : Part → List Part
  | Part.leaf d => [Part.leaf d]
  | Part.multi ct cs => Part.multi ct cs :: walkList cs

/-- `walk` mapped over a list of children, concatenated in order. -/
def walkList : List Part → List Part
  | [] => []
  | c :: cs => walk c ++ walkList cs
end

/-- The filesystem state: the set of existing directories and the files
written so far, most recent write first (so `List.lookup` returns the
last write — "last write wins" on filename collisions). -/
structure FS where
  dirs : List String
  files : List (String × List Nat)
  deriving DecidableEq, Repr

/-- One e-mail record, modelling the `email_info` dictionary built by
`_parse_email`: header fields are `Option` because Python's
`msg["header"]` is `None` when the header is absent. -/
structure EmailInfo where
  uid : String
  subject : Option String
  fromAddr : Option String
  toAddr : Option String
  date : Option String
  text : List Nat
  attachments : List String
  deriving DecidableEq, Repr

/-- Embedding of `EmailBot._save_attachments`: if the part has a truthy
filename, append it to the record's attachment list, create the attachment
directory if absent, and write the part's decoded payload to
`dir ++ "/" ++ filename` (`os.path.join`). -/
def saveAttachments (d : LeafData) (info : EmailInfo) (dir : String) (fs : FS) :
    EmailInfo × FS :=
  match d.filename with
  | none => (info, fs)
  | some f =>
    if f = "" then (info, fs)
    else
      let info' := { info with attachments := info.attachments ++ [f] }
      let fs1 := if dir ∈ fs.dirs then fs else { fs with dirs := dir :: fs.dirs }
      (info', { fs1 with files := (dir ++ "/" ++ f, d.payload) :: fs1.files })

/-- One iteration of the `for part in msg.walk()` loop in
`_extract_email_text_and_attachments`: a part with no content-disposition
and content type `text/plain` or `text/html` appends its decoded payload to
the record's text; a part with disposition `attachment` is saved when
`save_attachments` is enabled. Multipart containers match neither test
(their content type is `multipart/...`). -/
def extractStep (saveA : Bool) (dir : String) (acc : EmailInfo × FS) (p : Part) :
    EmailInfo × FS :=
  match p with
  | Part.multi _ _ => acc
  | Part.leaf d =>
    let info := acc.1
    let info' :=
      if d.disposition = none ∧ (d.contentType = "text/plain" ∨ d.contentType = "text/html")
      then { info with text := info.text ++ decodePayload d }
      else info
    if saveA ∧ d.disposition = some "attachment"
    then saveAttachments d info' dir acc.2
    else (info', acc.2)

/-- Embedding of `EmailBot._extract_email_text_and_attachments`: a
multipart message is walked part by part; a non-multipart message just has
its whole payload decoded into `text` (and nothing saved). -/
def extractEmail (saveA : Bool) (dir : String) (msg : Part) (info : EmailInfo)
    (fs : FS) : EmailInfo × FS :=
  match msg with
  | Part.multi ct cs => (walk (Part.multi ct cs)).foldl (extractStep saveA dir) (info, fs)
  | Part.leaf d => ({ info with text := decodePayload d }, fs)

/-- A fetched raw message after `email.message_from_bytes`: the headers the
code reads, plus the MIME body tree. -/
structure Message where
  subject : Option String
  fromAddr : Option String
  toAddr : Option String
  date : Option String
  body : Part

/-- Embedding of `EmailBot._parse_email`: build the record with the
verbatim header values, empty text and no attachments, then extract text
and attachments from the body. The returned filesystem already holds every
attachment write — writes happen before the record is returned. -/
def parseEmail (m : Message) (uid : String) (saveA : Bool) (dir : String)
    (fs : FS) : EmailInfo × FS :=
  let info0 : EmailInfo :=
    { uid := uid, subject := m.subject, fromAddr := m.fromAddr,
      toAddr := m.toAddr, date := m.date, text := [], attachments := [] }
  extractEmail saveA dir m.body info0 fs

/-! ## IMAP wire commands and the fetch orchestration
(`EmailBot._search_and_fetch_emails`, `_move_email`) -/

/-- The IMAP commands the client can issue. `uid...` constructors model
`mail.uid('SEARCH'/'FETCH'/'COPY'/'STORE', ...)`; `seq...` constructors
model the sequence-number API (`mail.search`/`mail.fetch`/`mail.copy`/
`mail.store`), which the code could call instead but never does. -/
inductive ImapCmd where
  | selectCmd : String → ImapCmd
  | listCmd : ImapCmd
  | uidSearch : String → ImapCmd
  | uidFetch : String → ImapCmd
  | uidCopy : String → String → ImapCmd
  | uidStore : String → String → ImapCmd
  | expunge : ImapCmd
  | seqSearch : String → ImapCmd
  | seqFetch : String → ImapCmd
  | seqCopy : String → String → ImapCmd
  | seqStore : String → String → ImapCmd
  deriving DecidableEq, Repr

/-- Does the command address messages by mailbox sequence number? -/
def usesSeqNumbers : ImapCmd → Bool
  | ImapCmd.seqSearch _ => true
  | ImapCmd.seqFetch _ => true
  | ImapCmd.seqCopy _ _ => true
  | ImapCmd.seqStore _ _ => true
  | _ => false

/-- Result of one `_search_and_fetch_emails` call: the assembled records,
the filesystem after all attachment writes, and the trace of IMAP commands
issued on the wire. -/
structure FetchOutcome where
  records : List EmailInfo
  fs : FS
  cmds : List ImapCmd

/-- The per-UID loop body of `_search_and_fetch_emails`: issue
`mail.uid('fetch', uid, "(RFC822)")`; if the status is not `"OK"`, log and
`continue`; otherwise parse the message and append the record. -/
def fetchStep (fetchResp : String → String × Message) (saveA : Bool)
    (dir : String) (acc : FetchOutcome) (uid : String) : FetchOutcome :=
  let acc' := { acc with cmds := acc.cmds ++ [ImapCmd.uidFetch uid] }
  if (fetchResp uid).1 = "OK" then
    let (info, fs') := parseEmail (fetchResp uid).2 uid saveA dir acc.fs
    { acc' with records := acc.records ++ [info], fs := fs' }
  else acc'

/-- Embedding of `EmailBot._search_and_fetch_emails`: select the folder,
issue `mail.uid('search', None, criteria)`; if the search status is not
`"OK"`, return the empty list; otherwise fetch each returned UID in order,
skipping any whose fetch fails. `searchResp` is the server's search
response (status, UID list); `fetchResp uid` is the server's fetch response
for that UID (status, parsed message). -/
def searchAndFetch (folder criteria : String)
    (searchResp : String × List String) (fetchResp : String → String × Message)
    (saveA : Bool) (dir : String) (fs : FS) : FetchOutcome :=
  let base := [ImapCmd.selectCmd folder, ImapCmd.uidSearch criteria]
  if searchResp.1 = "OK" then
    searchResp.2.foldl (fetchStep fetchResp saveA dir)
      { records := [], fs := fs, cmds := base }
  else
    { records := [], fs := fs, cmds := base }

/-! ## Folder move (`EmailBot._move_email`) -/

/-- Split a character list at the first occurrence of the (non-empty)
separator: `some (before, after)` when the separator occurs, `none`
otherwise. -/
def breakOnSep (sep : List Char) : List Char → Option (List Char × List Char)
  | [] => none
  | c :: rest =>
    if sep.isPrefixOf (c :: rest) then some ([], (c :: rest).drop sep.length)
    else
      match breakOnSep sep rest with
      | some (pre, post) => some (c :: pre, post)
      | none => none

/-- Split a character list on every non-overlapping occurrence of the
separator, left to right (Python's `str.split(sep)` for non-empty `sep`);
`fuel` bounds the recursion and is instantiated with the list length. -/
def splitOnAux (sep : List Char) : Nat → List Char → List (List Char)
  | 0, l => [l]
  | fuel + 1, l =>
    match breakOnSep sep l with
    | none => [l]
    | some (pre, post) => pre :: splitOnAux sep fuel post

/-- Python's `s.split(sep)` for a non-empty separator, on strings. -/
def splitChars (sep s : String) : List String :=
  (splitOnAux sep.data s.data.length s.data).map List.asString

/-- Parsing of one line of the `mail.list()` response data in
`_move_email`: `folder.decode().split(' "/" ')[-1]`. -/
def parseListLine (s : String) : String :=
  (splitChars " \"/\" " s).getLastD s

/-- Embedding of `EmailBot._move_email` as the trace of IMAP commands it
issues. `listData` is the raw `mail.list()` data; `copyOK` says whether the
server answers the COPY with `'OK'`. The code lists the folders, fails fast
if the parsed folder names do not contain the target, otherwise selects
`'inbox'`, copies the message by UID, and only on COPY `'OK'` flags the
source copy `\Deleted` and expunges. -/
def moveEmailCmds (listData : List String) (copyOK : Bool)
    (uid targetFolder : String) : List ImapCmd :=
  let folderNames := listData.map parseListLine
  if targetFolder ∈ folderNames then
    [ImapCmd.listCmd, ImapCmd.selectCmd "inbox", ImapCmd.uidCopy uid targetFolder] ++
      (if copyOK then
        [ImapCmd.uidStore uid "(\\Deleted)", ImapCmd.expunge]
      else [])
  else
    [ImapCmd.listCmd]

/-- One message held by the IMAP server: the folder it sits in, its UID,
and its `\Deleted` flag. -/
structure StoredMsg where
  folder : String
  uid : String
  deleted : Bool
  deriving DecidableEq, Repr

/-- The server-side mailbox state: the currently selected folder and the
stored messages. -/
structure MailStore where
  selected : String
  msgs : List StoredMsg
  deriving DecidableEq, Repr

/-- Modelled from the spec: the IMAP server's effect of each command
(§ 6 external interfaces and the glossary — the server is the engine's
environment, not repository code). `SELECT` changes the selected folder;
a COPY answered `'OK'` adds a copy of the message to the target folder
with flags cleared; `STORE +FLAGS (\Deleted)` marks the addressed message
in the selected folder; `EXPUNGE` permanently removes the `\Deleted`-
flagged messages of the selected folder; `LIST`, `SEARCH` and `FETCH` are
read-only. `copyOK` is whether the server answers COPY with `'OK'` (a
failed COPY has no effect). -/
def applyCmd (copyOK : Bool) (st : MailStore) : ImapCmd → MailStore
  | ImapCmd.selectCmd f => { st with selected := f }
  | ImapCmd.uidCopy uid target =>
    if copyOK then
      match st.msgs.find? (fun m => m.folder = st.selected && m.uid = uid) with
      | some _ => { st with msgs := st.msgs ++ [⟨target, uid, false⟩] }
      | none => st
    else st
  | ImapCmd.uidStore uid _ =>
    { st with msgs := st.msgs.map (fun m =>
        if m.folder = st.selected && m.uid = uid then { m with deleted := true } else m) }
  | ImapCmd.expunge =>
    { st with msgs := st.msgs.filter (fun m => !(m.folder = st.selected && m.deleted)) }
  | _ => st

/-- Run a trace of commands against the server state. -/
def applyCmds (copyOK : Bool) (st : MailStore) (cmds : List ImapCmd) : MailStore :=
  cmds.foldl (applyCmd copyOK) st

/-! ## Derived observation functions used to state the theorems -/

/-- Concatenated image of a list-valued function, in order. -/
def catMap {α β : Type} (g : α → List β) : List α → List β
  | [] => []
  | a :: as => g a ++ catMap g as

/-- The text a single walked part contributes to the record's body text in
`_extract_email_text_and_attachments`: its decoded payload when it is a
leaf with no content-disposition and content type `text/plain` or
`text/html`, nothing otherwise. -/
def textContrib (p : Part) : List Nat :=
  match p with
  | Part.leaf d =>
    if d.disposition = none ∧ (d.contentType = "text/plain" ∨ d.contentType = "text/html")
    then decodePayload d
    else []
  | Part.multi _ _ => []

/-- The attachment filenames a single walked part appends to the record
(when attachment saving is enabled): its truthy filename when it is a leaf
with content-disposition `attachment`. -/
def attachNames (p : Part) : List String :=
  match p with
  | Part.leaf d =>
    if d.disposition = some "attachment" then
      match d.filename with
      | some f => if f = "" then [] else [f]
      | none => []
    else []
  | Part.multi _ _ => []

/-- The file writes a single walked part performs (when attachment saving
is enabled): its payload at `dir ++ "/" ++ filename` when it is a leaf
with content-disposition `attachment` and a truthy filename. -/
def attachWrites (dir : String) (p : Part) : List (String × List Nat) :=
  match p with
  | Part.leaf d =>
    if d.disposition = some "attachment" then
      match d.filename with
      | some f => if f = "" then [] else [(dir ++ "/" ++ f, d.payload)]
      | none => []
    else []
  | Part.multi _ _ => []

/-- The `[fail, sleep, fail, sleep, ...]` trace of `n` failed attempts each
followed by a sleep. -/
def failSleepTrace (S : Type) : Nat → List (ConnEvent S)
  | 0 => []
  | n + 1 => ConnEvent.attemptFail :: ConnEvent.sleep :: failSleepTrace S n

/-- Is this connection event a `time.sleep`? -/
def isSleep {S : Type} : ConnEvent S → Bool
  | ConnEvent.sleep => true
  | _ => false

/-! ## Concrete data for witnesses and counterexamples -/

/-- A part declaring charset `latin-1` whose payload is the valid UTF-8
encoding of `é` (code point 0xE9): declared-charset-first decoding and the
code's decoding disagree on it. -/
def cexLatin1Part : LeafData :=
  ⟨"text/plain", none, some "latin-1", none, [0xC3, 0xA9]⟩

/-- A part declaring a malformed charset label whose payload is valid
UTF-8. -/
def cexBogusPart : LeafData :=
  ⟨"text/plain", none, some "bogus", none, [0xC3, 0xA9]⟩

/-- A payload that is not valid UTF-8 (a stray 0xFF byte). -/
def cexNonUtf8Part : LeafData :=
  ⟨"text/plain", none, none, none, [0xFF, 0x41]⟩

/-- A plain-text leaf part (`"hi"` in ASCII). -/
def wTextPart : LeafData := ⟨"text/plain", none, none, none, [0x68, 0x69]⟩

/-- An attachment leaf part with filename `a.pdf`. -/
def wAttachPart : LeafData :=
  ⟨"application/pdf", some "attachment", none, some "a.pdf", [1, 2, 3]⟩

/-- A small multipart message: one text part, one attachment part. -/
def wMsgTree : Part :=
  Part.multi "multipart/mixed" [Part.leaf wTextPart, Part.leaf wAttachPart]

/-- A fresh record as built at the top of `_parse_email`. -/
def wInfo : EmailInfo := ⟨"7", none, none, none, none, [], []⟩

/-- An empty filesystem. -/
def wFS : FS := ⟨[], []⟩

/-- Message 1 of the three-message mailbox: ordinary subject. -/
def wMsg1 : Message :=
  ⟨some "s1", some "alice@example.com", some "bob@example.com", some "d1",
   Part.leaf wTextPart⟩

/-- Message 2 of the three-message mailbox: EMPTY subject header. -/
def wMsg2 : Message :=
  ⟨some "", some "alice@example.com", some "bob@example.com", some "d2",
   Part.leaf wTextPart⟩

/-- Message 3 of the three-message mailbox: ordinary subject. -/
def wMsg3 : Message :=
  ⟨some "s3", some "carol@example.com", some "bob@example.com", some "d3",
   Part.leaf wTextPart⟩

/-- A well-behaved server's fetch responses for UIDs "1", "2", "3". -/
def wFetchResp : String → String × Message := fun u =>
  if u = "1" then ("OK", wMsg1) else if u = "2" then ("OK", wMsg2) else ("OK", wMsg3)

/-- Raw `mail.list()` data reporting folders INBOX and Trash. -/
def wListData : List String :=
  ["(\\HasNoChildren) \"/\" INBOX", "(\\HasNoChildren) \"/\" Trash"]

/-- A server state with one message in the inbox. -/
def wStore : MailStore := ⟨"", [⟨"inbox", "42", false⟩]⟩

/-! ## Helper lemmas -/

lemma catMap_append {α β : Type} (g : α → List β) (l1 l2 : List α) :
    catMap g (l1 ++ l2) = catMap g l1 ++ catMap g l2 := by
  induction l1 with
  | nil => simp [catMap]
  | cons a as ih => simp [catMap, ih]

lemma mem_catMap_of_mem {α β : Type} {g : α → List β} {a : α} {b : β}
    {l : List α} (ha : a ∈ l) (hb : b ∈ g a) : b ∈ catMap g l := by
  induction l with
  | nil => cases ha
  | cons x xs ih =>
    rcases List.mem_cons.mp ha with h | h
    · subst h; exact List.mem_append_left _ hb
    · exact List.mem_append_right _ (ih h)

lemma exists_of_mem_catMap {α β : Type} {g : α → List β} {b : β}
    {l : List α} (hb : b ∈ catMap g l) : ∃ a ∈ l, b ∈ g a := by
  induction l with
  | nil => cases hb
  | cons x xs ih =>
    rcases List.mem_append.mp hb with h | h
    · exact ⟨x, List.mem_cons_self _ _, h⟩
    · rcases ih h with ⟨a, ha, hga⟩
      exact ⟨a, List.mem_cons_of_mem _ ha, hga⟩

lemma latin1Decode_total (bs : List Nat) (h : ∀ b ∈ bs, b < 256) :
    latin1Decode bs = some bs := by
  induction bs with
  | nil => rfl
  | cons b rest ih =>
    have hb : b < 256 := h b (List.mem_cons_self _ _)
    have hrest : latin1Decode rest = some rest :=
      ih (fun x hx => h x (List.mem_cons_of_mem _ hx))
    simp [latin1Decode, latin1DecodeByte, hb, hrest]

lemma string_append_cancel_left (a b c : String) (h : a ++ b = a ++ c) : b = c := by
  have hd : (a ++ b).data = (a ++ c).data := congrArg String.data h
  simp only [String.data_append] at hd
  exact String.ext (List.append_cancel_left hd)

lemma lookup_append_of_mem {v : List Nat} {k : String}
    (l1 l2 : List (String × List Nat)) (h : (k, v) ∈ l1) :
    ∃ w, (l1 ++ l2).lookup k = some w ∧ (k, w) ∈ l1 := by
  induction l1 with
  | nil => cases h
  | cons e rest ih =>
    obtain ⟨k', v'⟩ := e
    by_cases hk : k = k'
    · subst hk
      exact ⟨v', by simp [List.lookup], List.mem_cons_self _ _⟩
    · rcases List.mem_cons.mp h with he | he
      · injection he with h1 _
        exact absurd h1 hk
      · rcases ih he with ⟨w, hw, hmem⟩
        refine ⟨w, ?_, List.mem_cons_of_mem _ hmem⟩
        simpa [List.lookup, beq_eq_false_iff_ne.mpr hk] using hw

lemma saveAttachments_fst_fields (d : LeafData) (info : EmailInfo) (dir : String)
    (fs : FS) :
    (saveAttachments d info dir fs).1.uid = info.uid ∧
    (saveAttachments d info dir fs).1.subject = info.subject ∧
    (saveAttachments d info dir fs).1.fromAddr = info.fromAddr ∧
    (saveAttachments d info dir fs).1.text = info.text := by
  cases hf : d.filename <;> simp [saveAttachments, hf] ; split_ifs <;> simp

lemma extractStep_headers (sa : Bool) (dir : String) (acc : EmailInfo × FS)
    (p : Part) :
    (extractStep sa dir acc p).1.uid = acc.1.uid ∧
    (extractStep sa dir acc p).1.subject = acc.1.subject ∧
    (extractStep sa dir acc p).1.fromAddr = acc.1.fromAddr := by
  cases p with
  | multi ct cs => simp [extractStep]
  | leaf d =>
    simp only [extractStep]
    split_ifs <;>
      first
      | simp
      | exact ⟨(saveAttachments_fst_fields d _ dir acc.2).1,
               (saveAttachments_fst_fields d _ dir acc.2).2.1,
               (saveAttachments_fst_fields d _ dir acc.2).2.2.1⟩

lemma extractStep_text (sa : Bool) (dir : String) (acc : EmailInfo × FS)
    (p : Part) :
    (extractStep sa dir acc p).1.text = acc.1.text ++ textContrib p := by
  cases p with
  | multi ct cs => simp [extractStep, textContrib]
  | leaf d =>
    simp only [extractStep, textContrib]
    split_ifs with h1 h2 h2 <;>
      simp_all [h1, (saveAttachments_fst_fields d _ dir acc.2).2.2.2]

lemma extractStep_attachments (dir : String) (acc : EmailInfo × FS) (p : Part) :
    (extractStep true dir acc p).1.attachments = acc.1.attachments ++ attachNames p := by
  cases p with
  | multi ct cs => simp [extractStep, attachNames]
  | leaf d =>
    simp only [extractStep, attachNames]
    split_ifs with h1 h2 h2 <;>
      cases hf : d.filename <;>
        simp_all [saveAttachments, hf] ;
          split_ifs <;> simp_all

lemma extractStep_files (dir : String) (acc : EmailInfo × FS) (p : Part) :
    (extractStep true dir acc p).2.files = (attachWrites dir p).reverse ++ acc.2.files := by
  cases p with
  | multi ct cs => simp [extractStep, attachWrites]
  | leaf d =>
    simp only [extractStep, attachWrites]
    split_ifs with h1 h2 h2 <;>
      cases hf : d.filename <;>
        simp_all [saveAttachments, hf] ;
          split_ifs <;> simp_all

lemma extractStep_dirs_subset (sa : Bool) (dir : String) (acc : EmailInfo × FS)
    (p : Part) : acc.2.dirs ⊆ (extractStep sa dir acc p).2.dirs := by
  cases p with
  | multi ct cs => simp [extractStep]
  | leaf d =>
    simp only [extractStep]
    split_ifs <;>
      cases hf : d.filename <;>
        simp_all [saveAttachments, hf] ;
          split_ifs <;> simp_all [List.subset_cons_self]

lemma extractStep_dirs_mem (dir : String) (acc : EmailInfo × FS) (p : Part)
    (h : attachNames p ≠ []) : dir ∈ (extractStep true dir acc p).2.dirs := by
  cases p with
  | multi ct cs => simp [attachNames] at h
  | leaf d =>
    simp only [attachNames] at h
    simp only [extractStep]
    split_ifs with h1 h2 h2 <;>
      cases hf : d.filename <;>
        simp_all [saveAttachments, hf] ;
          split_ifs <;> simp_all

lemma extractFold_headers (sa : Bool) (dir : String) :
    ∀ (ps : List Part) (acc : EmailInfo × FS),
      (ps.foldl (extractStep sa dir) acc).1.uid = acc.1.uid ∧
      (ps.foldl (extractStep sa dir) acc).1.subject = acc.1.subject ∧
      (ps.foldl (extractStep sa dir) acc).1.fromAddr = acc.1.fromAddr := by
  intro ps
  induction ps with
  | nil => intro acc; exact ⟨rfl, rfl, rfl⟩
  | cons p ps ih =>
    intro acc
    rw [List.foldl_cons]
    refine ⟨?_, ?_, ?_⟩
    · exact (ih _).1.trans (extractStep_headers sa dir acc p).1
    · exact (ih _).2.1.trans (extractStep_headers sa dir acc p).2.1
    · exact (ih _).2.2.trans (extractStep_headers sa dir acc p).2.2

lemma extractFold_text (sa : Bool) (dir : String) :
    ∀ (ps : List Part) (acc : EmailInfo × FS),
      (ps.foldl (extractStep sa dir) acc).1.text = acc.1.text ++ catMap textContrib ps := by
  intro ps
  induction ps with
  | nil => intro acc; simp [catMap]
  | cons p ps ih =>
    intro acc
    rw [List.foldl_cons, ih, extractStep_text, catMap, List.append_assoc]

lemma extractFold_attachments (dir : String) :
    ∀ (ps : List Part) (acc : EmailInfo × FS),
      (ps.foldl (extractStep true dir) acc).1.attachments
        = acc.1.attachments ++ catMap attachNames ps := by
  intro ps
  induction ps with
  | nil => intro acc; simp [catMap]
  | cons p ps ih =>
    intro acc
    rw [List.foldl_cons, ih, extractStep_attachments, catMap, List.append_assoc]

lemma extractFold_files (dir : String) :
    ∀ (ps : List Part) (acc : EmailInfo × FS),
      (ps.foldl (extractStep true dir) acc).2.files
        = (catMap (attachWrites dir) ps).reverse ++ acc.2.files := by
  intro ps
  induction ps with
  | nil => intro acc; simp [catMap]
  | cons p ps ih =>
    intro acc
    rw [List.foldl_cons, ih, extractStep_files, catMap, List.reverse_append,
      List.append_assoc]

lemma extractFold_dirs_subset (sa : Bool) (dir : String) :
    ∀ (ps : List Part) (acc : EmailInfo × FS),
      acc.2.dirs ⊆ (ps.foldl (extractStep sa dir) acc).2.dirs := by
  intro ps
  induction ps with
  | nil => intro acc; exact fun x hx => hx
  | cons p ps ih =>
    intro acc
    rw [List.foldl_cons]
    exact (extractStep_dirs_subset sa dir acc p).trans (ih _)

lemma extractFold_dirs_mem (dir : String) :
    ∀ (ps : List Part) (acc : EmailInfo × FS) (p : Part),
      p ∈ ps → attachNames p ≠ [] →
      dir ∈ (ps.foldl (extractStep true dir) acc).2.dirs := by
  intro ps
  induction ps with
  | nil => intro acc p hp; cases hp
  | cons q qs ih =>
    intro acc p hp hne
    rw [List.foldl_cons]
    rcases List.mem_cons.mp hp with h | h
    · subst h
      exact extractFold_dirs_subset true dir qs _ (extractStep_dirs_mem dir acc p hne)
    · exact ih _ p h hne

lemma parseEmail_headers (m : Message) (uid : String) (sa : Bool) (dir : String)
    (fs : FS) :
    (parseEmail m uid sa dir fs).1.uid = uid ∧
    (parseEmail m uid sa dir fs).1.subject = m.subject ∧
    (parseEmail m uid sa dir fs).1.fromAddr = m.fromAddr := by
  unfold parseEmail extractEmail
  cases m.body with
  | leaf d => exact ⟨rfl, rfl, rfl⟩
  | multi ct cs => exact extractFold_headers sa dir _ _

lemma connectList_cons_cons {S : Type} (o : Option S) (l : List (Option S)) :
    connectList (none :: o :: l) =
      (ConnEvent.attemptFail :: ConnEvent.sleep :: (connectList (o :: l)).1,
       (connectList (o :: l)).2) := by
  rcases h : connectList (o :: l) with ⟨tr, r⟩
  simp [connectList, h]

lemma connectList_replicate_some {S : Type} (n : Nat) (s : S) :
    connectList (List.replicate n none ++ [some s]) =
      (failSleepTrace S n ++ [ConnEvent.attemptSucceed s], some s) := by
  induction n with
  | zero => simp [connectList, failSleepTrace]
  | succ m ih =>
    have hcons : ∃ hd tl, List.replicate m (none : Option S) ++ [some s] = hd :: tl := by
      cases m <;> simp [List.replicate_succ]
    obtain ⟨hd, tl, he⟩ := hcons
    rw [List.replicate_succ, List.cons_append, he, connectList_cons_cons, ← he, ih]
    simp [failSleepTrace]

lemma connectList_replicate_none {S : Type} (m : Nat) :
    connectList (List.replicate (m + 1) (none : Option S)) =
      (failSleepTrace S m ++ [ConnEvent.attemptFail], none) := by
  induction m with
  | zero => simp [connectList, failSleepTrace]
  | succ k ih =>
    rw [List.replicate_succ, List.replicate_succ, connectList_cons_cons,
      ← List.replicate_succ, ih]
    simp [failSleepTrace]

lemma failSleepTrace_countP (S : Type) (n : Nat) :
    (failSleepTrace S n).countP (fun e => isSleep e) = n := by
  induction n with
  | zero => rfl
  | succ m ih =>
    have h1 : isSleep (ConnEvent.attemptFail : ConnEvent S) = false := rfl
    have h2 : isSleep (ConnEvent.sleep : ConnEvent S) = true := rfl
    simp only [failSleepTrace, List.countP_cons, ih, h1, h2]
    simp

lemma range_map_all_none {S : Type} (N : Nat) (outcome : Nat → Option S)
    (h : ∀ k, k < N → outcome k = none) :
    (List.range N).map outcome = List.replicate N none := by
  induction N with
  | zero => simp
  | succ n ih =>
    rw [List.range_succ, List.map_append, List.replicate_succ',
      ih (fun k hk => h k (Nat.lt_succ_of_lt hk))]
    simp [h n (Nat.lt_succ_self n)]

lemma fetchFold_cmds (fetchResp : String → String × Message) (sa : Bool)
    (dir : String) :
    ∀ (uids : List String) (acc : FetchOutcome),
      (uids.foldl (fetchStep fetchResp sa dir) acc).cmds
        = acc.cmds ++ uids.map ImapCmd.uidFetch := by
  intro uids
  induction uids with
  | nil => intro acc; simp
  | cons u us ih =>
    intro acc
    rw [List.foldl_cons, ih]
    simp only [fetchStep]
    split_ifs <;> simp

lemma fetchFold_records_uid (fetchResp : String → String × Message) (sa : Bool)
    (dir : String) :
    ∀ (uids : List String) (acc : FetchOutcome),
      ((uids.foldl (fetchStep fetchResp sa dir) acc).records).map (fun r => r.uid)
        = acc.records.map (fun r => r.uid)
          ++ uids.filter (fun u => (fetchResp u).1 = "OK") := by
  intro uids
  induction uids with
  | nil => intro acc; simp
  | cons u us ih =>
    intro acc
    rw [List.foldl_cons, ih]
    simp only [fetchStep]
    split_ifs with h
    · simp [List.filter_cons, h, (parseEmail_headers (fetchResp u).2 u sa dir acc.fs).1]
    · simp [List.filter_cons, h]

/-! ## Claim theorems -/

/-- **C1**: in `_move_email`, the source message is marked `\Deleted` and the
folder expunged only if the preceding COPY reports OK: a `UID STORE` or
`EXPUNGE` appears in the issued command trace only when the COPY response is
OK; when it is not, no STORE/EXPUNGE is issued and the mailbox messages —
in particular the source message — are unchanged; and when COPY is OK (and
the target folder exists) the STORE of `\Deleted` and the EXPUNGE are indeed
issued. -/
theorem moveEmail_copy_guard (listData : List String) (copyOK : Bool)
    (uid target : String) (st : MailStore) :
    (∀ u fl, ImapCmd.uidStore u fl ∈ moveEmailCmds listData copyOK uid target →
      copyOK = true) ∧
    (ImapCmd.expunge ∈ moveEmailCmds listData copyOK uid target → copyOK = true) ∧
    (copyOK = false →
      (applyCmds copyOK st (moveEmailCmds listData copyOK uid target)).msgs
        = st.msgs) ∧
    (copyOK = true → target ∈ listData.map parseListLine →
      ImapCmd.uidStore uid "(\\Deleted)" ∈ moveEmailCmds listData copyOK uid target ∧
      ImapCmd.expunge ∈ moveEmailCmds listData copyOK uid target) := by
  unfold moveEmailCmds
  by_cases ht : target ∈ listData.map parseListLine
  · cases copyOK
    · refine ⟨?_, ?_, ?_, ?_⟩
      · intro u fl hmem
        simp [ht] at hmem
      · intro hmem
        simp [ht] at hmem
      · intro _
        simp [ht, applyCmds, applyCmd]
      · intro h
        cases h
    · refine ⟨fun _ _ _ => rfl, fun _ => rfl, ?_, ?_⟩
      · intro h
        cases h
      · intro _ _
        simp [ht]
  · refine ⟨?_, ?_, ?_, ?_⟩
    · intro u fl hmem
      simp [ht] at hmem
    · intro hmem
      simp [ht] at hmem
    · intro _
      simp [ht, applyCmds, applyCmd]
    · intro _ hmem
      exact absurd hmem ht

/-- Witness for C1: with a failing COPY of message 42 to the existing folder
`Trash`, the mailbox messages are untouched. -/
theorem moveEmail_copy_guard_witness :
    (applyCmds false wStore (moveEmailCmds wListData false "42" "Trash")).msgs
      = wStore.msgs :=
  (moveEmail_copy_guard wListData false "42" "Trash" wStore).2.2.1 rfl

/-- **C5**: a move whose target folder is absent from the folder list
reported by the server fails fast: the only command issued is the (read-only)
LIST, no COPY is issued, and the mailbox state is completely unchanged. -/
theorem moveEmail_missing_target (listData : List String) (copyOK : Bool)
    (uid target : String) (st : MailStore)
    (habs : target ∉ listData.map parseListLine) :
    moveEmailCmds listData copyOK uid target = [ImapCmd.listCmd] ∧
    (∀ u t, ImapCmd.uidCopy u t ∉ moveEmailCmds listData copyOK uid target) ∧
    applyCmds copyOK st (moveEmailCmds listData copyOK uid target) = st := by
  have h1 : moveEmailCmds listData copyOK uid target = [ImapCmd.listCmd] := by
    unfold moveEmailCmds
    simp [habs]
  refine ⟨h1, ?_, ?_⟩
  · intro u t
    rw [h1]
    simp
  · rw [h1]
    rfl

/-- Witness for C5: moving to the non-listed folder `Nope` issues only LIST
and leaves the server state intact. -/
theorem moveEmail_missing_target_witness :
    moveEmailCmds wListData true "42" "Nope" = [ImapCmd.listCmd] ∧
    applyCmds true wStore (moveEmailCmds wListData true "42" "Nope") = wStore := by
  have h := moveEmail_missing_target wListData true "42" "Nope" wStore (by decide)
  exact ⟨h.1, h.2.2⟩

/-- **C8**: identifier-scheme consistency: every command
`_search_and_fetch_emails` issues (the search and every per-message fetch)
and every command `_move_email` issues (COPY, STORE) addresses messages by
UID; no command addressing messages by mailbox sequence number is ever put
on the wire, so UID search is always paired with UID fetch and UID
COPY/STORE, never mixed with sequence numbers. -/
theorem uid_scheme_consistent (folder criteria : String)
    (searchResp : String × List String) (fetchResp : String → String × Message)
    (sa : Bool) (dir : String) (fs : FS)
    (listData : List String) (copyOK : Bool) (uid target : String) :
    (∀ c ∈ (searchAndFetch folder criteria searchResp fetchResp sa dir fs).cmds,
      usesSeqNumbers c = false) ∧
    (∀ c ∈ moveEmailCmds listData copyOK uid target,
      usesSeqNumbers c = false) := by
  constructor
  · intro c hc
    unfold searchAndFetch at hc
    split_ifs at hc
    · rw [fetchFold_cmds] at hc
      rcases List.mem_append.mp hc with h1 | h1
      · rcases List.mem_cons.mp h1 with rfl | h2
        · rfl
        · rcases List.mem_cons.mp h2 with rfl | h3
          · rfl
          · cases h3
      · rcases List.mem_map.mp h1 with ⟨u, _, rfl⟩
        rfl
    · rcases List.mem_cons.mp hc with rfl | h2
      · rfl
      · rcases List.mem_cons.mp h2 with rfl | h3
        · rfl
        · cases h3
  · intro c hc
    unfold moveEmailCmds at hc
    by_cases ht : target ∈ listData.map parseListLine
    · cases copyOK
      · simp [ht] at hc
        rcases hc with rfl | rfl | rfl <;> rfl
      · simp [ht] at hc
        rcases hc with rfl | rfl | rfl | rfl | rfl <;> rfl
    · simp [ht] at hc
      rcases hc with rfl
      rfl

/-- Witness for C8: concrete commands appearing in concrete fetch and move
traces use the UID scheme. -/
theorem uid_scheme_consistent_witness :
    usesSeqNumbers (ImapCmd.uidFetch "1") = false ∧
    usesSeqNumbers ImapCmd.listCmd = false := by
  have h := uid_scheme_consistent "inbox" "ALL" ("OK", ["1", "2", "3"])
    wFetchResp false "" wFS wListData true "42" "Trash"
  exact ⟨h.1 (ImapCmd.uidFetch "1") (by decide),
         h.2 ImapCmd.listCmd (by decide)⟩

/-- **C4**: in `_search_and_fetch_emails`, a UID whose fetch does not answer
OK is skipped and fetching continues: the returned sequence consists of one
record per identifier whose fetch succeeded, in search order — one failing
fetch never aborts the batch. -/
theorem fetch_skips_failed (folder criteria : String) (uids : List String)
    (fetchResp : String → String × Message) (sa : Bool) (dir : String)
    (fs : FS) :
    ((searchAndFetch folder criteria ("OK", uids) fetchResp sa dir fs).records).map
        (fun r => r.uid)
      = uids.filter (fun u => (fetchResp u).1 = "OK") := by
  unfold searchAndFetch
  rw [if_pos rfl, fetchFold_records_uid]
  simp

/-- **C7** counterexample: fetching `'ALL'` against a three-message mailbox
whose second message has an empty subject header returns three records whose
subject fields are the verbatim header values — the second record's subject
is the empty string, not a documented placeholder, refuting the claim that
every returned record has a non-empty (or placeholder) subject. -/
theorem fetchAll_empty_subject_cex :
    ((searchAndFetch "inbox" "ALL" ("OK", ["1", "2", "3"]) wFetchResp false ""
        wFS).records).length = 3 ∧
    ((searchAndFetch "inbox" "ALL" ("OK", ["1", "2", "3"]) wFetchResp false ""
        wFS).records).map (fun r => r.subject)
      = [some "s1", some "", some "s3"] := by
  decide

/-- **C7** (amended): fetching with criteria `'ALL'` against a mailbox of
three messages (the search answers OK with three UIDs and each fetch answers
OK) returns exactly 3 records whose `subject` and `from` fields are the
verbatim header values of the corresponding messages — non-empty exactly
when the headers are; an empty subject is carried through unchanged, no
placeholder is substituted. -/
theorem fetchAll_three_records (folder criteria : String) (u1 u2 u3 : String)
    (m1 m2 m3 : Message) (f : String → String × Message) (sa : Bool)
    (dir : String) (fs : FS)
    (h1 : f u1 = ("OK", m1)) (h2 : f u2 = ("OK", m2)) (h3 : f u3 = ("OK", m3)) :
    ((searchAndFetch folder criteria ("OK", [u1, u2, u3]) f sa dir fs).records).length
        = 3 ∧
    ((searchAndFetch folder criteria ("OK", [u1, u2, u3]) f sa dir fs).records).map
        (fun r => r.subject) = [m1.subject, m2.subject, m3.subject] ∧
    ((searchAndFetch folder criteria ("OK", [u1, u2, u3]) f sa dir fs).records).map
        (fun r => r.fromAddr) = [m1.fromAddr, m2.fromAddr, m3.fromAddr] := by
  unfold searchAndFetch
  rw [if_pos rfl]
  simp only [List.foldl_cons, List.foldl_nil, fetchStep, h1, h2, h3]
  simp [parseEmail_headers]

/-- Witness for C7 (amended): the three-message mailbox with UIDs 1, 2, 3
yields records carrying the messages' verbatim `from` headers. -/
theorem fetchAll_three_records_witness :
    ((searchAndFetch "inbox" "ALL" ("OK", ["1", "2", "3"]) wFetchResp false ""
        wFS).records).map (fun r => r.fromAddr)
      = [wMsg1.fromAddr, wMsg2.fromAddr, wMsg3.fromAddr] :=
  (fetchAll_three_records "inbox" "ALL" "1" "2" "3" wMsg1 wMsg2 wMsg3 wFetchResp
    false "" wFS rfl rfl rfl).2.2

/-- **C2**: for every retry count `N ≥ 1`, if the first `N − 1` connection
attempts fail and the `N`-th succeeds, `_connect` returns the session and
the last event of its trace is the successful attempt (no sleep after it),
with exactly `N − 1` sleeps in between; if all `N` attempts fail, it returns
`None` (a failure value, not an exception), the trace ends with the last
failed attempt (no sleep after it), and exactly `N − 1` sleeps occur —
only between attempts. -/
theorem connect_retry {S : Type} (N : Nat) (hN : 1 ≤ N) (s : S)
    (outcome : Nat → Option S) (hfail : ∀ k, k < N - 1 → outcome k = none)
    (hsucc : outcome (N - 1) = some s)
    (outcomeAll : Nat → Option S) (hall : ∀ k, k < N → outcomeAll k = none) :
    ((connect outcome N).2 = some s ∧
     (connect outcome N).1.getLast? = some (ConnEvent.attemptSucceed s) ∧
     (connect outcome N).1.countP (fun e => isSleep e) = N - 1) ∧
    ((connect outcomeAll N).2 = none ∧
     (connect outcomeAll N).1.getLast? = some (ConnEvent.attemptFail : ConnEvent S) ∧
     (connect outcomeAll N).1.countP (fun e => isSleep e) = N - 1) := by
  obtain ⟨M, rfl⟩ : ∃ M, N = M + 1 := ⟨N - 1, (Nat.succ_pred_eq_of_pos hN).symm⟩
  have e1 : (List.range (M + 1)).map outcome = List.replicate M none ++ [some s] := by
    rw [List.range_succ, List.map_append]
    have hr : (List.range M).map outcome = List.replicate M none :=
      range_map_all_none M outcome (fun k hk => hfail k (by omega))
    simp only [hr, List.map_cons, List.map_nil]
    simpa using hsucc
  have e2 : (List.range (M + 1)).map outcomeAll = List.replicate (M + 1) none :=
    range_map_all_none (M + 1) outcomeAll hall
  have hsf : (fun e => isSleep e) (ConnEvent.attemptSucceed s) = false := rfl
  have hff : (fun e => isSleep e) (ConnEvent.attemptFail : ConnEvent S) = false := rfl
  constructor
  · rw [connect, e1, connectList_replicate_some]
    refine ⟨rfl, List.getLast?_concat _, ?_⟩
    rw [List.countP_append, failSleepTrace_countP]
    simp [List.countP_cons, hsf]
  · rw [connect, e2, connectList_replicate_none]
    refine ⟨rfl, List.getLast?_concat _, ?_⟩
    rw [List.countP_append, failSleepTrace_countP]
    simp [List.countP_cons, hff]

/-- Witness for C2: with 3 retries, two failures then a success return the
session; three failures return `none`. -/
theorem connect_retry_witness :
    (connect (fun k => if k = 2 then some 0 else none) 3).2 = some 0 ∧
    (connect (fun _ => (none : Option Nat)) 3).2 = none := by
  have h := connect_retry 3 (by norm_num) 0
    (fun k => if k = 2 then some 0 else none)
    (fun k hk => if_neg (by omega))
    (by norm_num)
    (fun _ => none) (fun _ _ => rfl)
  exact ⟨h.1.1, h.2.1⟩

/-- **C3** counterexample: `_decode_payload` does not try the part-declared
charset first: on a part declaring charset `latin-1` whose payload bytes are
the valid UTF-8 encoding of `é`, the code decodes as UTF-8 to `[0xE9]`,
whereas declared-charset-first decoding (`decodePayloadSpec`, the spec's
words) yields `[0xC3, 0xA9]` (`Ã©`) — the two procedures disagree. -/
theorem decode_declared_charset_cex :
    decodePayload cexLatin1Part = [0xE9] ∧
    decodePayloadSpec cexLatin1Part = [0xC3, 0xA9] ∧
    decodePayload cexLatin1Part ≠ decodePayloadSpec cexLatin1Part := by
  decide

/-- **C3** (amended): `_decode_payload` ignores the part-declared charset
entirely — so no malformed charset label can abort the decode — and tries
the fixed chain utf-8 then latin-1 (then ISO-8859-1 with lossy replacement):
on any byte-string payload, valid UTF-8 bytes decode to the UTF-8 text — in
particular a part with an invalid declared charset but valid UTF-8 bytes
still decodes to the correct text — invalid UTF-8 falls back to latin-1,
and changing the declared charset never changes the result. -/
theorem decodePayload_chain (d : LeafData)
    (hbytes : ∀ b ∈ d.payload, b < 256) :
    (∀ cs, utf8Decode d.payload = some cs → decodePayload d = cs) ∧
    (utf8Decode d.payload = none → decodePayload d = d.payload) ∧
    (∀ label, decodePayload { d with charsetDecl := label } = decodePayload d) := by
  refine ⟨?_, ?_, ?_⟩
  · intro cs hcs
    simp [decodePayload, hcs]
  · intro hnone
    simp [decodePayload, hnone, latin1Decode_total d.payload hbytes]
  · intro label
    rfl

/-- Witness for C3 (amended): a part declaring the malformed charset
`bogus` with valid UTF-8 payload still decodes to the correct text `é`. -/
theorem decodePayload_chain_witness : decodePayload cexBogusPart = [0xE9] :=
  (decodePayload_chain cexBogusPart (by decide)).1 [0xE9] (by decide)

/-- **C10**: `_decode_payload` is total on byte strings and never raises:
latin-1 decoding succeeds on every possible byte sequence (it is the
identity embedding of bytes into code points), so the final ISO-8859-1
lossy-replacement branch is unreachable and the decode always returns the
UTF-8 decoding when the payload is valid UTF-8 and the latin-1 decoding
otherwise. -/
theorem decodePayload_total (d : LeafData)
    (hbytes : ∀ b ∈ d.payload, b < 256) :
    latin1Decode d.payload = some d.payload ∧
    decodeBranch d ≠ 2 ∧
    decodePayload d = (utf8Decode d.payload).getD d.payload := by
  have hl := latin1Decode_total d.payload hbytes
  refine ⟨hl, ?_, ?_⟩
  · unfold decodeBranch
    cases hu : utf8Decode d.payload <;> simp [hu, hl]
  · unfold decodePayload
    cases hu : utf8Decode d.payload <;> simp [hu, hl]

/-- Witness for C10: on a non-UTF-8 payload, latin-1 succeeds and the
ISO-8859-1 branch is not taken. -/
theorem decodePayload_total_witness :
    latin1Decode cexNonUtf8Part.payload = some cexNonUtf8Part.payload ∧
    decodeBranch cexNonUtf8Part ≠ 2 :=
  ⟨(decodePayload_total cexNonUtf8Part (by decide)).1,
   (decodePayload_total cexNonUtf8Part (by decide)).2.1⟩

/-- **C6**: for a multipart message, the record's body text is the
concatenation, in `walk` traversal order, of the per-part contributions,
where every part with no content-disposition and content type `text/plain`
contributes exactly its decoded content (the code also lets such
`text/html` parts contribute; every other part contributes nothing). -/
theorem extract_text_in_order (ct : String) (cs : List Part) (sa : Bool)
    (dir : String) (info : EmailInfo) (fs : FS) :
    (extractEmail sa dir (Part.multi ct cs) info fs).1.text
      = info.text ++ catMap textContrib (walk (Part.multi ct cs)) ∧
    (∀ d : LeafData, d.disposition = none → d.contentType = "text/plain" →
      textContrib (Part.leaf d) = decodePayload d) := by
  constructor
  · simp only [extractEmail]
    rw [extractFold_text]
  · intro d h1 h2
    simp [textContrib, h1, h2]

/-- Witness for C6: on a concrete two-part message the extracted text is
the ordered concatenation of contributions, and the text part's
contribution is its decoded payload. -/
theorem extract_text_in_order_witness :
    (extractEmail true "att" wMsgTree wInfo wFS).1.text
      = wInfo.text ++ catMap textContrib (walk wMsgTree) ∧
    textContrib (Part.leaf wTextPart) = decodePayload wTextPart := by
  have h := extract_text_in_order "multipart/mixed"
    [Part.leaf wTextPart, Part.leaf wAttachPart] true "att" wInfo wFS
  exact ⟨h.1, h.2 wTextPart rfl rfl⟩

/-- **C9**: with attachment saving enabled, every part of a multipart
message with content-disposition `attachment` and a non-empty filename has
its name appended to the record's attachments list and its payload written
to a file under the configured directory (the directory being created if
absent) in the filesystem state returned together with the record — the
write is in place before the record reaches the caller; on a filename
collision the file holds the payload of one of the parts bearing that
filename (last write wins, as documented). -/
theorem extract_saves_attachments (ct : String) (cs : List Part) (dir : String)
    (info : EmailInfo) (fs : FS) (d : LeafData) (f : String)
    (hmem : Part.leaf d ∈ walk (Part.multi ct cs))
    (hdisp : d.disposition = some "attachment")
    (hfn : d.filename = some f) (hne : f ≠ "") :
    f ∈ (extractEmail true dir (Part.multi ct cs) info fs).1.attachments ∧
    dir ∈ (extractEmail true dir (Part.multi ct cs) info fs).2.dirs ∧
    (∃ pl, ((extractEmail true dir (Part.multi ct cs) info fs).2.files).lookup
        (dir ++ "/" ++ f) = some pl ∧
      ∃ d' : LeafData, Part.leaf d' ∈ walk (Part.multi ct cs) ∧
        d'.disposition = some "attachment" ∧ d'.filename = some f ∧
        d'.payload = pl) := by
  have hnames : attachNames (Part.leaf d) = [f] := by
    simp [attachNames, hdisp, hfn, hne]
  have hwrites : attachWrites dir (Part.leaf d) = [(dir ++ "/" ++ f, d.payload)] := by
    simp [attachWrites, hdisp, hfn, hne]
  refine ⟨?_, ?_, ?_⟩
  · simp only [extractEmail]
    rw [extractFold_attachments]
    refine List.mem_append_right _ ?_
    exact mem_catMap_of_mem hmem (by rw [hnames]; exact List.mem_singleton_self _)
  · simp only [extractEmail]
    exact extractFold_dirs_mem dir _ _ _ hmem (by rw [hnames]; simp)
  · simp only [extractEmail]
    rw [extractFold_files]
    have hkmem : (dir ++ "/" ++ f, d.payload)
        ∈ catMap (attachWrites dir) (walk (Part.multi ct cs)) :=
      mem_catMap_of_mem hmem (by rw [hwrites]; exact List.mem_singleton_self _)
    obtain ⟨w, hw, hmemw⟩ :=
      lookup_append_of_mem _ fs.files (List.mem_reverse.mpr hkmem)
    refine ⟨w, hw, ?_⟩
    obtain ⟨p, hp, hwp⟩ := exists_of_mem_catMap (List.mem_reverse.mp hmemw)
    cases p with
    | multi a b => simp [attachWrites] at hwp
    | leaf d' =>
      simp only [attachWrites] at hwp
      split_ifs at hwp with hdisp'
      · cases hf' : d'.filename with
        | none =>
          rw [hf'] at hwp
          cases hwp
        | some f' =>
          rw [hf'] at hwp
          by_cases hf'e : f' = ""
          · simp [hf'e] at hwp
          · have hwp2 : (dir ++ "/" ++ f, w)
                ∈ (if f' = "" then [] else [(dir ++ "/" ++ f', d'.payload)]) := hwp
            rw [if_neg hf'e] at hwp2
            have hpair := List.mem_singleton.mp hwp2
            obtain ⟨hkey, hpl⟩ := Prod.mk.inj hpair
            have hff : f = f' :=
              string_append_cancel_left (dir ++ "/") f f' hkey
            exact ⟨d', hp, hdisp', by rw [hf', hff], hpl.symm⟩
      · cases hwp

/-- Witness for C9: on the concrete two-part message, the attachment
`a.pdf` is recorded and the directory `att` exists in the returned
filesystem state. -/
theorem extract_saves_attachments_witness :
    "a.pdf" ∈ (extractEmail true "att" wMsgTree wInfo wFS).1.attachments ∧
    "att" ∈ (extractEmail true "att" wMsgTree wInfo wFS).2.dirs := by
  have h := extract_saves_attachments "multipart/mixed"
    [Part.leaf wTextPart, Part.leaf wAttachPart] "att" wInfo wFS wAttachPart
    "a.pdf" (by simp [walk, walkList]) rfl rfl (by decide)
  exact ⟨h.1, h.2.1⟩

end EmailBot
